import Mathlib

/-!
Verification of the helix demo program (source/main.cpp): a raylib window
loop that, every frame, parses the fixed formula string "cos(x) + sin(2x)",
differentiates it with respect to the symbol x via SymEngine, and draws the
resulting expression as text.

The windowing loop of main is embedded as an event-trace semantics driven by
an oracle giving the result of each WindowShouldClose poll.  The symbolic
algebra calls (parse, diff) live in the external SymEngine library, so they
are modelled from the spec's contract for the Expression Evaluator:
standard infix notation with implicit multiplication and the function names
cos and sin, standard calculus differentiation rules, and a ParseError
signal on ill-formed input.
-/

/-- Modelled from the spec: the error signal of the external parser
(SymEngine raises an exception; the contract calls it ParseError). -/
abbrev ParseError := String

/-- Modelled from the spec: the immutable expression tree produced by the
external symbolic-algebra library. -/
inductive Expr where
  | num : Nat → Expr
  | sym : String → Expr
  | add : Expr → Expr → Expr
  | mul : Expr → Expr → Expr
  | div : Expr → Expr → Expr
  | neg : Expr → Expr
  | sinE : Expr → Expr
  | cosE : Expr → Expr
deriving DecidableEq

/-- Tokens of the formula language. -/
inductive Token where
  | num : Nat → Token
  | ident : String → Token
  | plus : Token
  | minus : Token
  | star : Token
  | slash : Token
  | lparen : Token
  | rparen : Token
deriving DecidableEq

/-- Scan a run of decimal digits, returning the value and the rest. -/
def lexNum : List Char → Nat → Nat × List Char
  | [], acc => (acc, [])
  | c :: cs, acc =>
    if c.isDigit then lexNum cs (acc * 10 + (c.toNat - 48))
    else (acc, c :: cs)

/-- Scan a run of letters (accumulator is reversed), returning the name and the rest. -/
def lexIdent : List Char → List Char → List Char × List Char
  | [], acc => (acc.reverse, [])
  | c :: cs, acc =>
    if c.isAlpha then lexIdent cs (c :: acc)
    else (acc.reverse, c :: cs)

/-- Modelled from the spec: tokeniser for standard infix mathematical
notation.  Fuel-indexed; each step consumes at least one character, so fuel
equal to the input length always suffices. -/
def tokenize : Nat → List Char → Except ParseError (List Token)
  | 0, [] => Except.ok []
  | 0, _ :: _ => Except.error "tokenizer out of fuel"
  | _ + 1, [] => Except.ok []
  | fuel + 1, c :: cs =>
    if c = ' ' then tokenize fuel cs
    else if c.isDigit then
      match lexNum cs (c.toNat - 48) with
      | (n, rest) => (tokenize fuel rest).map (fun ts => Token.num n :: ts)
    else if c.isAlpha then
      match lexIdent cs [c] with
      | (name, rest) => (tokenize fuel rest).map (fun ts => Token.ident (String.mk name) :: ts)
    else if c = '+' then (tokenize fuel cs).map (fun ts => Token.plus :: ts)
    else if c = '-' then (tokenize fuel cs).map (fun ts => Token.minus :: ts)
    else if c = '*' then (tokenize fuel cs).map (fun ts => Token.star :: ts)
    else if c = '/' then (tokenize fuel cs).map (fun ts => Token.slash :: ts)
    else if c = '(' then (tokenize fuel cs).map (fun ts => Token.lparen :: ts)
    else if c = ')' then (tokenize fuel cs).map (fun ts => Token.rparen :: ts)
    else Except.error "unexpected character"

mutual

/-- Modelled from the spec: expressions are sums and differences of terms. -/
def parseE : Nat → List Token → Except ParseError (Expr × List Token)
  | 0, _ => Except.error "out of fuel"
  | fuel + 1, ts => do
    let (t, rest) ← parseT fuel ts
    parseETail fuel t rest

/-- Left-associative tail of sums and differences. -/
def parseETail : Nat → Expr → List Token → Except ParseError (Expr × List Token)
  | 0, _, _ => Except.error "out of fuel"
  | fuel + 1, acc, ts =>
    match ts with
    | Token.plus :: rest => do
        let (t, rest2) ← parseT fuel rest
        parseETail fuel (Expr.add acc t) rest2
    | Token.minus :: rest => do
        let (t, rest2) ← parseT fuel rest
        parseETail fuel (Expr.add acc (Expr.neg t)) rest2
    | _ => Except.ok (acc, ts)

/-- Modelled from the spec: terms are products and quotients of factors,
with implicit multiplication (a factor directly followed by a number, an
identifier or an opening parenthesis, as in 2x). -/
def parseT : Nat → List Token → Except ParseError (Expr × List Token)
  | 0, _ => Except.error "out of fuel"
  | fuel + 1, ts => do
    let (f, rest) ← parseF fuel ts
    parseTTail fuel f rest

/-- Left-associative tail of products, quotients and implicit products. -/
def parseTTail : Nat → Expr → List Token → Except ParseError (Expr × List Token)
  | 0, _, _ => Except.error "out of fuel"
  | fuel + 1, acc, ts =>
    match ts with
    | Token.star :: rest => do
        let (f, rest2) ← parseF fuel rest
        parseTTail fuel (Expr.mul acc f) rest2
    | Token.slash :: rest => do
        let (f, rest2) ← parseF fuel rest
        parseTTail fuel (Expr.div acc f) rest2
    | Token.num _ :: _ => do
        let (f, rest2) ← parseF fuel ts
        parseTTail fuel (Expr.mul acc f) rest2
    | Token.ident _ :: _ => do
        let (f, rest2) ← parseF fuel ts
        parseTTail fuel (Expr.mul acc f) rest2
    | Token.lparen :: _ => do
        let (f, rest2) ← parseF fuel ts
        parseTTail fuel (Expr.mul acc f) rest2
    | _ => Except.ok (acc, ts)

/-- Modelled from the spec: factors are numbers, symbols, the functions sin
and cos applied to a parenthesised argument, parenthesised expressions and
negations. -/
def parseF : Nat → List Token → Except ParseError (Expr × List Token)
  | 0, _ => Except.error "out of fuel"
  | fuel + 1, ts =>
    match ts with
    | Token.num n :: rest => Except.ok (Expr.num n, rest)
    | Token.minus :: rest => do
        let (f, rest2) ← parseF fuel rest
        Except.ok (Expr.neg f, rest2)
    | Token.lparen :: rest => do
        let (e, rest2) ← parseE fuel rest
        match rest2 with
        | Token.rparen :: rest3 => Except.ok (e, rest3)
        | _ => Except.error "expected closing parenthesis"
    | Token.ident s :: Token.lparen :: rest =>
        if s = "sin" ∨ s = "cos" then do
          let (e, rest2) ← parseE fuel rest
          match rest2 with
          | Token.rparen :: rest3 =>
              Except.ok (if s = "sin" then Expr.sinE e else Expr.cosE e, rest3)
          | _ => Except.error "expected closing parenthesis"
        else Except.ok (Expr.sym s, Token.lparen :: rest)
    | Token.ident s :: rest => Except.ok (Expr.sym s, rest)
    | _ => Except.error "expected a factor"

end

/-- Modelled from the spec: parse a formula string into an expression tree,
failing with a ParseError when the string is not a well-formed expression. -/
def parse (s : String) : Except ParseError Expr := do
  let ts ← tokenize (s.length + 1) s.data
  let (e, rest) ← parseE (5 * ts.length + 5) ts
  match rest with
  | [] => Except.ok e
  | _ => Except.error "unexpected trailing input"

/-- Modelled from the spec: symbolic differentiation with respect to the
named symbol, following the standard calculus rules (sum rule, product and
quotient rules, chain rule through the trig functions). -/
def diff (e : Expr) (x : String) : Expr :=
  match e with
  | Expr.num _ => Expr.num 0
  | Expr.sym s => if s = x then Expr.num 1 else Expr.num 0
  | Expr.add a b => Expr.add (diff a x) (diff b x)
  | Expr.mul a b => Expr.add (Expr.mul (diff a x) b) (Expr.mul a (diff b x))
  | Expr.div a b =>
      Expr.div (Expr.add (Expr.mul (diff a x) b) (Expr.neg (Expr.mul a (diff b x))))
        (Expr.mul b b)
  | Expr.neg a => Expr.neg (diff a x)
  | Expr.sinE a => Expr.mul (Expr.cosE a) (diff a x)
  | Expr.cosE a => Expr.mul (Expr.neg (Expr.sinE a)) (diff a x)

/-- The helper of main (source/main.cpp, lines 14-20): parse the input
string into a symbolic expression, then differentiate it with respect to x. -/
def compute_derivative (expr : String) (x : String) : Except ParseError Expr := do
  let f ← parse expr
  Except.ok (diff f x)

/-- Real-valued denotation of an expression tree under an assignment of the
symbols; two trees are equal up to algebraic normal form exactly when their
denotations agree on every assignment. -/
noncomputable def eval (ρ : String → ℝ) : Expr → ℝ
  | Expr.num n => n
  | Expr.sym s => ρ s
  | Expr.add a b => eval ρ a + eval ρ b
  | Expr.mul a b => eval ρ a * eval ρ b
  | Expr.div a b => eval ρ a / eval ρ b
  | Expr.neg a => -(eval ρ a)
  | Expr.sinE a => Real.sin (eval ρ a)
  | Expr.cosE a => Real.cos (eval ρ a)

/-- The fixed formula string of main (source/main.cpp, line 35). -/
def fx : String := "cos(x) + sin(2x)"

/-- The concrete tree that compute_derivative produces for the fixed
formula fx and the symbol x. -/
def dtree : Expr :=
  Expr.add
    (Expr.mul (Expr.neg (Expr.sinE (Expr.sym "x"))) (Expr.num 1))
    (Expr.mul
      (Expr.cosE (Expr.mul (Expr.num 2) (Expr.sym "x")))
      (Expr.add (Expr.mul (Expr.num 0) (Expr.sym "x")) (Expr.mul (Expr.num 2) (Expr.num 1))))

/-- The raylib colors used by main, abstracted to their names. -/
inductive Color where
  | red : Color
  | blue : Color
  | white : Color
deriving DecidableEq

/-- Observable events of main (source/main.cpp, lines 22-47): the raylib
calls it issues, in order, plus the final return.  A pollShouldClose event
records the value WindowShouldClose returned; a drawText event records the
expression tree whose printed form is drawn (the printer of the algebra
library is left opaque, as in the spec).  fatalError marks the unhandled
propagation of a ParseError out of the loop body. -/
inductive Event where
  | initWindow : Int → Int → String → Event
  | setTargetFPS : Int → Event
  | pollShouldClose : Bool → Event
  | beginDrawing : Event
  | clearBackground : Color → Event
  | drawRectangle : Int → Int → Int → Int → Color → Event
  | drawText : Expr → Int → Int → Int → Color → Event
  | endDrawing : Event
  | closeWindow : Event
  | ret : Int → Event
  | fatalError : Event
deriving DecidableEq

/-- The per-frame derivative computed inside the loop body: every frame
calls compute_derivative on the same literal formula and symbol, with no
dependence on the frame index and no other state (source/main.cpp,
lines 35-36). -/
def frameDerivative (_k : Nat) : Except ParseError Expr := compute_derivative fx "x"

/-- The loop body of frame k (source/main.cpp, lines 30-41): begin drawing,
clear to blue, draw the red rectangle, then draw the derivative as text and
end the frame — unless the parse inside compute_derivative failed, in which
case the exception escapes and the program dies. -/
def iterBody (k : Nat) : List Event :=
  [Event.beginDrawing, Event.clearBackground Color.blue,
   Event.drawRectangle 20 20 60 60 Color.red]
  ++ (match frameDerivative k with
      | Except.ok t => [Event.drawText t 100 100 30 Color.white, Event.endDrawing]
      | Except.error _ => [Event.fatalError])

/-- One loop iteration that does not observe the close signal: a false poll
followed by the body. -/
def iterEvents (k : Nat) : List Event := Event.pollShouldClose false :: iterBody k

/-- The calls main makes before the loop (source/main.cpp, lines 25-26). -/
def startupEvents : List Event :=
  [Event.initWindow 900 900 "TEST", Event.setTargetFPS 60]

/-- The calls main makes after the loop (source/main.cpp, lines 44-46). -/
def shutdownEvents : List Event := [Event.closeWindow, Event.ret 0]

/-- The full event trace of a run of main whose close poll first returns
true at iteration N: startup, N full iterations, the true poll, shutdown. -/
def mainTrace (N : Nat) : List Event :=
  startupEvents ++ (List.range N).flatMap iterEvents
    ++ (Event.pollShouldClose true :: shutdownEvents)

/-- Small-step semantics of the while loop (source/main.cpp, lines 28-42),
driven by the oracle close giving each WindowShouldClose poll result and by
a fuel bound: the events from the poll of iteration k onwards, or none if
the loop does not finish within the fuel. -/
def runFrom (close : Nat → Bool) : Nat → Nat → Option (List Event)
  | 0, _ => none
  | fuel + 1, k =>
    if close k then some (Event.pollShouldClose true :: shutdownEvents)
    else (runFrom close fuel (k + 1)).map (fun rest => iterEvents k ++ rest)

/-- Semantics of main: the full event trace of a run under the poll oracle
close, or none if the loop does not finish within the fuel. -/
def run (close : Nat → Bool) (fuel : Nat) : Option (List Event) :=
  (runFrom close fuel 0).map (fun rest => startupEvents ++ rest)

/-- N is the first iteration whose WindowShouldClose poll returns true. -/
def firstClose (close : Nat → Bool) (N : Nat) : Prop :=
  close N = true ∧ ∀ k, k < N → close k = false

/-- Recognise a WindowShouldClose poll event. -/
def isPoll : Event → Bool
  | Event.pollShouldClose _ => true
  | _ => false

/-- Recognise a BeginDrawing event, marking the start of a loop body. -/
def isBegin : Event → Bool
  | Event.beginDrawing => true
  | _ => false

/-- Recognise the InitWindow event. -/
def isInit : Event → Bool
  | Event.initWindow _ _ _ => true
  | _ => false

/-- Recognise the CloseWindow event. -/
def isClose : Event → Bool
  | Event.closeWindow => true
  | _ => false

/-- Recognise the return of main. -/
def isRet : Event → Bool
  | Event.ret _ => true
  | _ => false

/-- Recognise a drawing call (anything between BeginDrawing and EndDrawing,
those two included). -/
def isDraw : Event → Bool
  | Event.beginDrawing => true
  | Event.endDrawing => true
  | Event.clearBackground _ => true
  | Event.drawRectangle _ _ _ _ _ => true
  | Event.drawText _ _ _ _ _ => true
  | _ => false

/-- Every argument of every call in the trace is the compile-time literal
that main passes: window 900x900 titled TEST, 60 frames per second, blue
background, a red rectangle at (20, 20, 60, 60), the derivative of the
fixed formula drawn at (100, 100) in size 30 white, exit code 0.  Only the
polled close flag is not a literal. -/
def fixedParams : Event → Bool
  | Event.initWindow w h t => w == 900 && h == 900 && t == "TEST"
  | Event.setTargetFPS n => n == 60
  | Event.pollShouldClose _ => true
  | Event.beginDrawing => true
  | Event.clearBackground c => c == Color.blue
  | Event.drawRectangle x y w h c =>
      x == 20 && y == 20 && w == 60 && h == 60 && c == Color.red
  | Event.drawText d x y s c =>
      d == dtree && x == 100 && y == 100 && s == 30 && c == Color.white
  | Event.endDrawing => true
  | Event.closeWindow => true
  | Event.ret n => n == 0
  | Event.fatalError => true

/-- Lifecycle states of the window resource (spec section 4.1). -/
inductive LState where
  | uninit : LState
  | running : LState
  | terminated : LState
  | err : LState
deriving DecidableEq

/-- Lifecycle automaton: InitWindow moves Uninitialized to Running and is
legal only there; CloseWindow moves Running to Terminated and is legal only
there; a drawing call is legal only in Running; every violation falls into
the absorbing error state. -/
def lstep (s : LState) (e : Event) : LState :=
  match s, e with
  | LState.err, _ => LState.err
  | LState.uninit, Event.initWindow _ _ _ => LState.running
  | _, Event.initWindow _ _ _ => LState.err
  | LState.running, Event.closeWindow => LState.terminated
  | _, Event.closeWindow => LState.err
  | s, e => if isDraw e then (if s = LState.running then LState.running else LState.err) else s

/-- Run the lifecycle automaton over a trace from the Uninitialized state. -/
def lifecycleRun (tr : List Event) : LState := tr.foldl lstep LState.uninit

/-- The loop body with the derivative supplied from outside instead of
recomputed (used to state the caching refinement). -/
def cachedBody (d : Except ParseError Expr) : List Event :=
  [Event.beginDrawing, Event.clearBackground Color.blue,
   Event.drawRectangle 20 20 60 60 Color.red]
  ++ (match d with
      | Except.ok t => [Event.drawText t 100 100 30 Color.white, Event.endDrawing]
      | Except.error _ => [Event.fatalError])

/-- Modelled from the spec's suggested reimplementation: compute the
derivative once before the loop and reuse the cached result on every
frame. -/
def mainTraceCached (N : Nat) : List Event :=
  let d := compute_derivative fx "x"
  startupEvents ++ (List.range N).flatMap (fun _ => Event.pollShouldClose false :: cachedBody d)
    ++ (Event.pollShouldClose true :: shutdownEvents)

lemma frameDerivative_concrete (k : Nat) : frameDerivative k = Except.ok dtree := rfl

lemma iterBody_concrete (k : Nat) :
    iterBody k = [Event.beginDrawing, Event.clearBackground Color.blue,
      Event.drawRectangle 20 20 60 60 Color.red,
      Event.drawText dtree 100 100 30 Color.white, Event.endDrawing] := rfl

lemma iterEvents_concrete (k : Nat) :
    iterEvents k = [Event.pollShouldClose false, Event.beginDrawing,
      Event.clearBackground Color.blue, Event.drawRectangle 20 20 60 60 Color.red,
      Event.drawText dtree 100 100 30 Color.white, Event.endDrawing] := rfl

lemma countP_flatMap_range (f : Nat → List Event) (p : Event → Bool) (c : Nat)
    (h : ∀ k, (f k).countP p = c) (N : Nat) :
    ((List.range N).flatMap f).countP p = N * c := by
  induction N with
  | zero => simp
  | succ n ih =>
    rw [List.range_succ, List.flatMap_append, List.countP_append, ih]
    simp [h, Nat.succ_mul]

lemma foldl_lstep_err (l : List Event) : l.foldl lstep LState.err = LState.err := by
  induction l with
  | nil => rfl
  | cons e l ih =>
    have h : lstep LState.err e = LState.err := by cases e <;> rfl
    simpa [List.foldl, h] using ih

lemma foldl_iterEvents_running (k : Nat) :
    (iterEvents k).foldl lstep LState.running = LState.running := rfl

lemma foldl_loop_running (N : Nat) :
    ((List.range N).flatMap iterEvents).foldl lstep LState.running = LState.running := by
  induction N with
  | zero => rfl
  | succ n ih =>
    rw [List.range_succ, List.flatMap_append, List.foldl_append, ih]
    simpa using foldl_iterEvents_running n

lemma runFrom_eq_of_firstClose (close : Nat → Bool) :
    ∀ N fuel k, N < fuel → close (k + N) = true → (∀ j, j < N → close (k + j) = false) →
      runFrom close fuel k =
        some ((List.range N).flatMap (fun j => iterEvents (k + j))
          ++ (Event.pollShouldClose true :: shutdownEvents)) := by
  intro N
  induction N with
  | zero =>
    intro fuel k hf h0 _
    cases fuel with
    | zero => omega
    | succ f =>
      rw [Nat.add_zero] at h0
      simp [runFrom, h0]
  | succ n ih =>
    intro fuel k hf hN hlt
    cases fuel with
    | zero => omega
    | succ f =>
      have hk : close k = false := by simpa using hlt 0 (Nat.succ_pos n)
      have hN' : close (k + 1 + n) = true := by
        rw [show k + 1 + n = k + (n + 1) by omega]; exact hN
      have hlt' : ∀ j, j < n → close (k + 1 + j) = false := by
        intro j hj
        rw [show k + 1 + j = k + (j + 1) by omega]
        exact hlt (j + 1) (by omega)
      have harg : (fun j => iterEvents (k + 1 + j)) = fun j => iterEvents (k + (j + 1)) := by
        funext j; congr 1; omega
      simp only [runFrom, hk, Bool.false_eq_true, if_false,
        ih f (k + 1) (by omega) hN' hlt', Option.map_some']
      rw [harg, List.range_succ_eq_map]
      simp only [List.flatMap_cons, List.flatMap_map, Function.comp, Nat.add_zero,
        List.append_assoc]

lemma run_eq_mainTrace (close : Nat → Bool) (N fuel : Nat)
    (h : firstClose close N) (hf : N < fuel) :
    run close fuel = some (mainTrace N) := by
  obtain ⟨hN, hlt⟩ := h
  rw [run, runFrom_eq_of_firstClose close N fuel 0 hf (by simpa using hN)
    (fun j hj => by simpa using hlt j hj)]
  simp [mainTrace, Nat.zero_add, List.append_assoc]

lemma runFrom_some_close (close : Nat → Bool) :
    ∀ fuel k tr, runFrom close fuel k = some tr → ∃ j, j < fuel ∧ close (k + j) = true := by
  intro fuel
  induction fuel with
  | zero => intro k tr h; simp [runFrom] at h
  | succ f ih =>
    intro k tr h
    by_cases hk : close k = true
    · exact ⟨0, Nat.succ_pos f, by simpa using hk⟩
    · simp only [runFrom, hk, if_false] at h
      obtain ⟨rest, hrest, -⟩ := Option.map_eq_some'.mp h
      obtain ⟨j, hj, hc⟩ := ih (k + 1) rest hrest
      exact ⟨j + 1, by omega, by rw [show k + (j + 1) = k + 1 + j by omega]; exact hc⟩

lemma runFrom_isSome_of_close (close : Nat → Bool) :
    ∀ fuel k j, j < fuel → close (k + j) = true → ∃ tr, runFrom close fuel k = some tr := by
  intro fuel
  induction fuel with
  | zero => intro k j hj _; omega
  | succ f ih =>
    intro k j hj hc
    by_cases hk : close k = true
    · exact ⟨Event.pollShouldClose true :: shutdownEvents, by simp [runFrom, hk]⟩
    · have hj0 : j ≠ 0 := by
        rintro rfl
        rw [Nat.add_zero] at hc
        exact hk hc
      obtain ⟨tr, htr⟩ := ih (k + 1) (j - 1) (by omega)
        (by rw [show k + 1 + (j - 1) = k + j by omega]; exact hc)
      exact ⟨iterEvents k ++ tr, by simp [runFrom, hk, htr]⟩

/-- Claim C1: for the fixed input string of main and the symbol x, the
result of compute_derivative equals, up to algebraic normal form (equality
of real denotations under every assignment of the symbols), the expression
obtained by independently parsing the expected derivative
"-sin(x) + 2*cos(2x)". -/
theorem claimC1 :
    ∃ t texp : Expr,
      compute_derivative fx "x" = Except.ok t ∧
      parse "-sin(x) + 2*cos(2x)" = Except.ok texp ∧
      ∀ ρ : String → ℝ, eval ρ t = eval ρ texp := by
  refine ⟨dtree,
    Expr.add (Expr.neg (Expr.sinE (Expr.sym "x")))
      (Expr.mul (Expr.num 2) (Expr.cosE (Expr.mul (Expr.num 2) (Expr.sym "x")))),
    rfl, rfl, ?_⟩
  intro ρ
  simp only [dtree, eval]
  push_cast
  ring

/-- Claim C2: the ill-formed string "cos(x) +* sin(" makes parse (and hence
compute_derivative) fail with a ParseError instead of returning a tree,
while the single literal input actually supplied by the frame loop parses
successfully on every frame, so the error path is unreachable there. -/
theorem claimC2 :
    (∃ e, parse "cos(x) +* sin(" = Except.error e) ∧
    (∃ e, compute_derivative "cos(x) +* sin(" "x" = Except.error e) ∧
    (∀ k : Nat, ∃ t, frameDerivative k = Except.ok t) :=
  ⟨⟨"expected a factor", rfl⟩, ⟨"expected a factor", rfl⟩, fun _ => ⟨dtree, rfl⟩⟩

/-- Claim C3: the per-frame derivative computation is a pure deterministic
function of the fixed formula and symbol: every frame yields the same
successful, structurally equal expression tree, and the whole loop body is
identical across frames. -/
theorem claimC3 :
    (∃ t : Expr, ∀ i : Nat, frameDerivative i = Except.ok t) ∧
    (∀ i j : Nat, frameDerivative i = frameDerivative j ∧ iterBody i = iterBody j) :=
  ⟨⟨dtree, fun _ => rfl⟩, fun _ _ => ⟨rfl, rfl⟩⟩

/-- Claim C4: when the close poll first returns true at iteration k, the
run of main is exactly the trace with k full iterations: the close check is
polled exactly once per iteration (k + 1 polls in all), exactly k loop
bodies execute (none after the true poll), and the true poll is followed
directly by CloseWindow and the return. -/
theorem claimC4 (close : Nat → Bool) (k fuel : Nat)
    (h : firstClose close k) (hf : k < fuel) :
    run close fuel = some (mainTrace k) ∧
    (mainTrace k).countP isPoll = k + 1 ∧
    (mainTrace k).countP isBegin = k ∧
    mainTrace k = (startupEvents ++ (List.range k).flatMap iterEvents)
      ++ (Event.pollShouldClose true :: shutdownEvents) := by
  refine ⟨run_eq_mainTrace close k fuel h hf, ?_, ?_, rfl⟩
  · show ((startupEvents ++ (List.range k).flatMap iterEvents)
      ++ (Event.pollShouldClose true :: shutdownEvents)).countP isPoll = k + 1
    rw [List.countP_append, List.countP_append,
      countP_flatMap_range iterEvents isPoll 1
        (fun j => by rw [iterEvents_concrete j]; rfl) k]
    have h1 : startupEvents.countP isPoll = 0 := rfl
    have h2 : (Event.pollShouldClose true :: shutdownEvents).countP isPoll = 1 := rfl
    rw [h1, h2]
    omega
  · show ((startupEvents ++ (List.range k).flatMap iterEvents)
      ++ (Event.pollShouldClose true :: shutdownEvents)).countP isBegin = k
    rw [List.countP_append, List.countP_append,
      countP_flatMap_range iterEvents isBegin 1
        (fun j => by rw [iterEvents_concrete j]; rfl) k]
    have h1 : startupEvents.countP isBegin = 0 := rfl
    have h2 : (Event.pollShouldClose true :: shutdownEvents).countP isBegin = 0 := rfl
    rw [h1, h2]
    omega

/-- Concrete witness for claimC4: the oracle that closes immediately. -/
theorem claimC4_witness :
    run (fun _ => true) 1 = some (mainTrace 0) ∧
    (mainTrace 0).countP isPoll = 0 + 1 ∧
    (mainTrace 0).countP isBegin = 0 ∧
    mainTrace 0 = (startupEvents ++ (List.range 0).flatMap iterEvents)
      ++ (Event.pollShouldClose true :: shutdownEvents) :=
  claimC4 (fun _ => true) 0 1 ⟨rfl, fun j hj => absurd hj (Nat.not_lt_zero j)⟩
    (by decide)

/-- Claim C5: every terminating run follows the lifecycle state machine
Uninitialized, then Running after InitWindow, then Terminated after
CloseWindow: the automaton run over the whole trace ends in Terminated,
InitWindow and CloseWindow each occur exactly once, and no prefix of the
trace ever falls into the error state (so no drawing call happens before
initialisation or after shutdown, and no transition is skipped or
repeated). -/
theorem claimC5 (N : Nat) (pre suf : List Event) (hsplit : mainTrace N = pre ++ suf) :
    lifecycleRun (mainTrace N) = LState.terminated ∧
    (mainTrace N).countP isInit = 1 ∧
    (mainTrace N).countP isClose = 1 ∧
    pre.foldl lstep LState.uninit ≠ LState.err := by
  have hterm : lifecycleRun (mainTrace N) = LState.terminated := by
    show ((startupEvents ++ (List.range N).flatMap iterEvents)
      ++ (Event.pollShouldClose true :: shutdownEvents)).foldl lstep LState.uninit
      = LState.terminated
    rw [List.foldl_append, List.foldl_append]
    have h1 : startupEvents.foldl lstep LState.uninit = LState.running := rfl
    rw [h1, foldl_loop_running N]
    rfl
  refine ⟨hterm, ?_, ?_, ?_⟩
  · show ((startupEvents ++ (List.range N).flatMap iterEvents)
      ++ (Event.pollShouldClose true :: shutdownEvents)).countP isInit = 1
    rw [List.countP_append, List.countP_append,
      countP_flatMap_range iterEvents isInit 0
        (fun j => by rw [iterEvents_concrete j]; rfl) N]
    have h1 : startupEvents.countP isInit = 1 := rfl
    have h2 : (Event.pollShouldClose true :: shutdownEvents).countP isInit = 0 := rfl
    rw [h1, h2]
    omega
  · show ((startupEvents ++ (List.range N).flatMap iterEvents)
      ++ (Event.pollShouldClose true :: shutdownEvents)).countP isClose = 1
    rw [List.countP_append, List.countP_append,
      countP_flatMap_range iterEvents isClose 0
        (fun j => by rw [iterEvents_concrete j]; rfl) N]
    have h1 : startupEvents.countP isClose = 0 := rfl
    have h2 : (Event.pollShouldClose true :: shutdownEvents).countP isClose = 1 := rfl
    rw [h1, h2]
    omega
  · intro herr
    have habs : lifecycleRun (mainTrace N) = LState.err := by
      rw [lifecycleRun, hsplit, List.foldl_append, herr, foldl_lstep_err]
    rw [hterm] at habs
    exact absurd habs (by decide)

/-- Concrete witness for claimC5: the empty prefix of the shortest trace. -/
theorem claimC5_witness :
    lifecycleRun (mainTrace 0) = LState.terminated ∧
    (mainTrace 0).countP isInit = 1 ∧
    (mainTrace 0).countP isClose = 1 ∧
    List.foldl lstep LState.uninit [] ≠ LState.err :=
  claimC5 0 [] (mainTrace 0) rfl

/-- Claim C7: hoisting the derivative computation out of the loop and
reusing the cached result on every frame yields, for every number of
iterations, exactly the trace of the per-frame recomputing program: every
frame draws the same text. -/
theorem claimC7 : ∀ N : Nat, mainTraceCached N = mainTrace N := fun _ => rfl

/-- Claim C8: every event of every run of main carries only the
compile-time literal parameters of the source (window 900x900 titled TEST,
60 frames per second, blue background, red rectangle at (20, 20, 60, 60),
the derivative of the fixed formula drawn at (100, 100) in size 30 white,
exit code 0); no input other than the polled close flag can change any of
them. -/
theorem claimC8 (close : Nat → Bool) (fuel : Nat) (tr : List Event) (e : Event)
    (h1 : run close fuel = some tr) (h2 : e ∈ tr) : fixedParams e = true := by
  have hloop : ∀ f k rest, runFrom close f k = some rest →
      ∀ x, x ∈ rest → fixedParams x = true := by
    intro f
    induction f with
    | zero => intro k rest h; simp [runFrom] at h
    | succ f ih =>
      intro k rest h x hx
      by_cases hk : close k = true
      · simp only [runFrom, hk, if_true] at h
        obtain rfl := Option.some.inj h
        simp only [shutdownEvents, List.mem_cons, List.not_mem_nil, or_false] at hx
        rcases hx with rfl | rfl | rfl <;> rfl
      · simp only [runFrom, hk, if_false] at h
        obtain ⟨rest', hrest, hcons⟩ := Option.map_eq_some'.mp h
        rw [← hcons] at hx
        rcases List.mem_append.mp hx with hx | hx
        · rw [iterEvents_concrete k] at hx
          simp only [List.mem_cons, List.not_mem_nil, or_false] at hx
          rcases hx with rfl | rfl | rfl | rfl | rfl | rfl <;> rfl
        · exact ih (k + 1) rest' hrest x hx
  rw [run] at h1
  obtain ⟨rest, hrest, hcat⟩ := Option.map_eq_some'.mp h1
  rw [← hcat] at h2
  rcases List.mem_append.mp h2 with hx | hx
  · simp only [startupEvents, List.mem_cons, List.not_mem_nil, or_false] at hx
    rcases hx with rfl | rfl <;> rfl
  · exact hloop fuel 0 rest hrest e hx

/-- Concrete witness for claimC8: the return event of the shortest run. -/
theorem claimC8_witness :
    run (fun _ => true) 1
      = some [Event.initWindow 900 900 "TEST", Event.setTargetFPS 60,
          Event.pollShouldClose true, Event.closeWindow, Event.ret 0] ∧
    Event.ret 0 ∈ [Event.initWindow 900 900 "TEST", Event.setTargetFPS 60,
          Event.pollShouldClose true, Event.closeWindow, Event.ret 0] ∧
    fixedParams (Event.ret 0) = true :=
  ⟨rfl, by decide,
    claimC8 (fun _ => true) 1
      [Event.initWindow 900 900 "TEST", Event.setTargetFPS 60,
        Event.pollShouldClose true, Event.closeWindow, Event.ret 0]
      (Event.ret 0) rfl (by decide)⟩

/-- Claim C9: every run that terminates normally via the close signal ends
with the return of exit code 0, and that return is the only exit event of
the trace. -/
theorem claimC9 (close : Nat → Bool) (N fuel : Nat)
    (h : firstClose close N) (hf : N < fuel) :
    run close fuel = some (mainTrace N) ∧
    (mainTrace N).getLast? = some (Event.ret 0) ∧
    (mainTrace N).countP isRet = 1 := by
  refine ⟨run_eq_mainTrace close N fuel h hf, ?_, ?_⟩
  · have hsplit : mainTrace N = ((startupEvents ++ (List.range N).flatMap iterEvents)
        ++ [Event.pollShouldClose true, Event.closeWindow]) ++ [Event.ret 0] := by
      simp [mainTrace, shutdownEvents, List.append_assoc]
    rw [hsplit]
    exact List.getLast?_concat _
  · show ((startupEvents ++ (List.range N).flatMap iterEvents)
      ++ (Event.pollShouldClose true :: shutdownEvents)).countP isRet = 1
    rw [List.countP_append, List.countP_append,
      countP_flatMap_range iterEvents isRet 0
        (fun j => by rw [iterEvents_concrete j]; rfl) N]
    have h1 : startupEvents.countP isRet = 0 := rfl
    have h2 : (Event.pollShouldClose true :: shutdownEvents).countP isRet = 1 := rfl
    rw [h1, h2]
    omega

/-- Concrete witness for claimC9: the oracle that closes immediately. -/
theorem claimC9_witness :
    run (fun _ => true) 1 = some (mainTrace 0) ∧
    (mainTrace 0).getLast? = some (Event.ret 0) ∧
    (mainTrace 0).countP isRet = 1 :=
  claimC9 (fun _ => true) 0 1 ⟨rfl, fun j hj => absurd hj (Nat.not_lt_zero j)⟩
    (by decide)

/-- Claim C10: main terminates exactly when WindowShouldClose eventually
returns true: a run produces a finite trace for some fuel if and only if
some poll answers true; when every poll answers false, no amount of fuel
finishes the loop, so CloseWindow and the return are never reached. -/
theorem claimC10 (close : Nat → Bool) :
    (∃ fuel tr, run close fuel = some tr) ↔ (∃ k, close k = true) := by
  constructor
  · rintro ⟨fuel, tr, h⟩
    rw [run] at h
    obtain ⟨rest, hrest, -⟩ := Option.map_eq_some'.mp h
    obtain ⟨j, -, hj⟩ := runFrom_some_close close fuel 0 rest hrest
    exact ⟨j, by simpa using hj⟩
  · rintro ⟨k, hk⟩
    obtain ⟨tr, htr⟩ := runFrom_isSome_of_close close (k + 1) 0 k
      (Nat.lt_succ_self k) (by simpa using hk)
    exact ⟨k + 1, startupEvents ++ tr, by rw [run, htr]; rfl⟩
